import Mathlib

/-!
Shallow embedding of the contact-management CRUD service.

Source files embedded:
- `app/schemas/contact.py` — pydantic schemas `ContactBase` / `ContactCreate` /
  `ContactUpdate` / `ContactResponse`;
- `app/api/endpoints/contacts.py` — the five operations `create_contact`,
  `read_contacts`, `read_contact`, `update_contact`, `delete_contact`.

The database table is modelled as a list of rows in insertion order together
with the next auto-increment id.  `ilike` filtering is modelled by SQL LIKE
pattern semantics (`%` matches any sequence, `_` any single character,
comparison case-insensitive) on the pattern `"%" ++ search ++ "%"`, exactly as
built by the f-string in `read_contacts`.
-/

/-- A stored contact row, as produced by the ORM model and serialised by
`ContactResponse`: integer primary key plus the five text fields, `address`
nullable. -/
structure Contact where
  id : Nat
  first_name : String
  last_name : String
  email : String
  phone_number : String
  address : Option String
  deriving DecidableEq, Repr

/-- The database state: rows in insertion order, plus the next value of the
auto-increment primary key. -/
structure Store where
  contacts : List Contact
  nextId : Nat
  deriving DecidableEq, Repr

/-- The empty database, auto-increment starting at 1. -/
def emptyStore : Store := ⟨[], 1⟩

/-- Well-formedness maintained by the primary-key column: ids are pairwise
distinct and below the auto-increment counter. -/
def WF (st : Store) : Prop :=
  (st.contacts.map Contact.id).Nodup ∧ ∀ c ∈ st.contacts, c.id < st.nextId

instance (st : Store) : Decidable (WF st) := by
  unfold WF; infer_instance

/-- SQL LIKE pattern matching, case-insensitive (`ilike`): `%` matches any
sequence of characters, `_` matches exactly one character, any other pattern
character matches itself up to ASCII case. -/
def likeMatches (p s : List Char) : Bool :=
  match p, s with
  | [], t => t.isEmpty
  | a :: ps, [] => if a = '%' then likeMatches ps [] else false
  | a :: ps, c :: cs =>
    if a = '%' then likeMatches ps (c :: cs) || likeMatches (a :: ps) cs
    else if a = '_' then likeMatches ps cs
    else decide (a.toLower = c.toLower) && likeMatches ps cs
termination_by p.length + s.length

/-- The LIKE pattern built by `read_contacts`: `f"%{search}%"`. -/
def likePat (t : List Char) : List Char := '%' :: (t ++ ['%'])

/-- The WHERE clause of `read_contacts`: the three `ilike` conditions joined
with `|`. -/
def contactMatches (t : String) (c : Contact) : Bool :=
  likeMatches (likePat t.data) c.first_name.data ||
  likeMatches (likePat t.data) c.last_name.data ||
  likeMatches (likePat t.data) c.email.data

/-- `read_contacts`: optional search filter (skipped when `search` is `None`
or empty, per Python truthiness of `if search:`), then `offset(skip)` and
`limit(limit)`. -/
def listContacts (st : Store) (skip limit : Nat) (search : Option String) :
    List Contact :=
  let base :=
    match search with
    | none => st.contacts
    | some t => if t = "" then st.contacts else st.contacts.filter (contactMatches t)
  (base.drop skip).take limit

/-- `select(Contact).where(Contact.id == contact_id)` followed by
`scalar_one_or_none()`. -/
def findContact (st : Store) (cid : Nat) : Option Contact :=
  st.contacts.find? (fun c => c.id == cid)

/-- `read_contact`: returns the row, `None` meaning the 404 NotFound path. -/
def getContact (st : Store) (cid : Nat) : Option Contact :=
  findContact st cid

/-- Validated creation input (`ContactCreate`): the four required text fields
plus the optional `address` (pydantic default `None`). -/
structure ContactCreate where
  first_name : String
  last_name : String
  email : String
  phone_number : String
  address : Option String
  deriving DecidableEq, Repr

/-- `create_contact`: builds a row from the validated input, assigns the next
primary key, appends it to the table and returns the refreshed row. -/
def createContact (st : Store) (inp : ContactCreate) : Contact × Store :=
  (⟨st.nextId, inp.first_name, inp.last_name, inp.email, inp.phone_number,
      inp.address⟩,
   ⟨st.contacts ++
      [⟨st.nextId, inp.first_name, inp.last_name, inp.email, inp.phone_number,
        inp.address⟩],
    st.nextId + 1⟩)

/-- An update change-set as seen by the merge loop of `update_contact`: the
dictionary `contact_update.model_dump(exclude_unset=True)`, one optional entry
per schema field (`none` = not present in the change-set).  `id` is not a
schema field and can never appear. -/
structure ContactUpdate where
  first_name : Option String
  last_name : Option String
  email : Option String
  phone_number : Option String
  address : Option (Option String)
  deriving DecidableEq, Repr

/-- The `setattr` loop of `update_contact`: each field present in the
change-set overwrites the stored value, absent fields are untouched.  For the
nullable `address`, the outer `Option` is presence in the change-set and the
inner one the (possibly null) value written. -/
def applyUpdate (c : Contact) (u : ContactUpdate) : Contact :=
  { id := c.id
    first_name := u.first_name.getD c.first_name
    last_name := u.last_name.getD c.last_name
    email := u.email.getD c.email
    phone_number := u.phone_number.getD c.phone_number
    address := u.address.getD c.address }

/-- `update_contact`: look the row up by id (404 when absent), apply the
`setattr` loop to it in place, commit, and return the refreshed row. -/
def updateContact (st : Store) (cid : Nat) (u : ContactUpdate) :
    Option (Contact × Store) :=
  match findContact st cid with
  | none => none
  | some c =>
    some (applyUpdate c u,
      ⟨st.contacts.map (fun d => if d.id == cid then applyUpdate d u else d),
        st.nextId⟩)

/-- `delete_contact`: look the row up by id (404 when absent), delete that row,
and return its pre-deletion state. -/
def deleteContact (st : Store) (cid : Nat) : Option (Contact × Store) :=
  match findContact st cid with
  | none => none
  | some c => some (c, ⟨st.contacts.eraseP (fun d => d.id == cid), st.nextId⟩)

/-- A raw creation request body before pydantic validation: each field may be
missing. -/
structure RawContactInput where
  first_name : Option String
  last_name : Option String
  email : Option String
  phone_number : Option String
  address : Option String
  deriving DecidableEq, Repr

/-- Modelled from the spec: `email` must pass email-format validation.  The
validator itself is pydantic's `EmailStr` (an external library, not in the
repository); it is modelled as: exactly one `@`, a non-empty local part, and a
non-empty domain containing a dot that is neither its first nor its last
character. -/
def isValidEmail (e : String) : Bool :=
  match (e.data.dropWhile (fun c => c ≠ '@')) with
  | [] => false
  | _ :: dp =>
    !(e.data.takeWhile (fun c => c ≠ '@')).isEmpty &&
      !dp.isEmpty && dp.all (fun c => c ≠ '@') && dp.contains '.' &&
      !(dp.head? == some '.') && !(dp.getLast? == some '.')

/-- Pydantic validation of `ContactCreate` as declared in
`app/schemas/contact.py`: the four `str`/`EmailStr` fields are required
(missing ⇒ validation error), `email` must pass the email-format check,
`address` defaults to `None`.  Plain `str` fields carry no emptiness
constraint. -/
def validateCreate (r : RawContactInput) : Except String ContactCreate :=
  match r.first_name, r.last_name, r.email, r.phone_number with
  | some fn, some ln, some em, some pn =>
    if isValidEmail em then .ok ⟨fn, ln, em, pn, r.address⟩
    else .error "value is not a valid email address"
  | _, _, _, _ => .error "field required"

/-- The create endpoint as the transport sees it: validation first (FastAPI
runs the pydantic model before the handler), then `create_contact`; on a
validation error nothing is written to the store. -/
def createEndpoint (st : Store) (r : RawContactInput) :
    Except String Contact × Store :=
  match validateCreate r with
  | .error e => (.error e, st)
  | .ok inp =>
    let p := createContact st inp
    (.ok p.1, p.2)

/-- Lower-casing of a character list; SQL LIKE comparison is case-insensitive,
modelled by comparing lower-cased characters. -/
def lowerStr (s : List Char) : List Char := s.map Char.toLower

/-- Naive substring test on character lists: some suffix of `s` has `t` as a
prefix. -/
def containsSub (t s : List Char) : Bool :=
  match s with
  | [] => t.isEmpty
  | c :: cs => t.isPrefixOf (c :: cs) || containsSub t cs

/-- Spec-side matching predicate, written from the spec's words: the search
text appears as a case-insensitive substring of the field. -/
def substrCI (t s : String) : Bool :=
  containsSub (lowerStr t.data) (lowerStr s.data)

/-- Spec-side list filter: case-insensitive substring of `first_name` OR
`last_name` OR `email`. -/
def specMatches (t : String) (c : Contact) : Bool :=
  substrCI t c.first_name || substrCI t c.last_name || substrCI t c.email

/-- A search text is wildcard-free when it contains neither LIKE
metacharacter. -/
def NoWildcards (t : String) : Prop :=
  ∀ ch ∈ t.data, ch ≠ '%' ∧ ch ≠ '_'

instance (t : String) : Decidable (NoWildcards t) := by
  unfold NoWildcards; infer_instance

/-! Concrete inputs and stores used by counterexamples and witnesses. -/

def inpA : ContactCreate := ⟨"Ann", "Alpha", "ann@example.com", "111", none⟩

def inpB : ContactCreate := ⟨"Ben", "Beta", "ben@example.com", "222", none⟩

def inpC : ContactCreate := ⟨"Cal", "Gamma", "cal@example.com", "333", none⟩

def cA : Contact := (createContact emptyStore inpA).1

def stA : Store := (createContact emptyStore inpA).2

def cB : Contact := (createContact stA inpB).1

def stAB : Store := (createContact stA inpB).2

def stABC : Store := (createContact stAB inpC).2

def inpFoo : ContactCreate := ⟨"Foo", "Bar", "foo@bar.com", "1", none⟩

def inpXoo : ContactCreate := ⟨"Aa", "Bb", "xoo@y.com", "2", none⟩

def inpNoOo : ContactCreate := ⟨"Cc", "Dd", "cd@e.com", "3", none⟩

def stSearch : Store :=
  (createContact (createContact (createContact emptyStore inpFoo).2 inpXoo).2
    inpNoOo).2

def rawEmptyFirst : RawContactInput :=
  ⟨some "", some "Beta", some "b@example.com", some "222", none⟩

def rawMissingEmail : RawContactInput :=
  ⟨some "A", some "B", none, some "1", none⟩

/-- A sample change-set touching only `first_name`. -/
def u0 : ContactUpdate := ⟨some "Zed", none, none, none, none⟩

/-! ### Helper lemmas -/

theorem bool_eq_of_iff {a b : Bool} (h : a = true ↔ b = true) : a = b := by
  cases a <;> cases b <;> simp_all

theorem likeMatches_pct (s : List Char) : likeMatches ['%'] s = true := by
  induction s with
  | nil => simp [likeMatches]
  | cons c cs ih => simp [likeMatches, ih]

theorem likeMatches_pct_cons (p : List Char) (s : List Char) :
    likeMatches ('%' :: p) s = true ↔
      ∃ a b, s = a ++ b ∧ likeMatches p b = true := by
  induction s with
  | nil =>
    constructor
    · intro h
      exact ⟨[], [], rfl, by simpa [likeMatches] using h⟩
    · rintro ⟨a, b, hab, hm⟩
      rcases List.append_eq_nil.mp hab.symm with ⟨ha, hb⟩
      subst ha; subst hb
      simpa [likeMatches] using hm
  | cons c cs ih =>
    constructor
    · intro h
      have h' : likeMatches p (c :: cs) = true ∨ likeMatches ('%' :: p) cs = true := by
        simpa [likeMatches, Bool.or_eq_true] using h
      rcases h' with h' | h'
      · exact ⟨[], c :: cs, rfl, h'⟩
      · rcases ih.mp h' with ⟨a, b, hab, hm⟩
        exact ⟨c :: a, b, by simp [hab], hm⟩
    · rintro ⟨a, b, hab, hm⟩
      cases a with
      | nil =>
        simp only [List.nil_append] at hab
        subst hab
        simp [likeMatches, hm]
      | cons a0 as =>
        rw [List.cons_append] at hab
        injection hab with h1 h2
        subst h1
        have hrec : likeMatches ('%' :: p) cs = true := ih.mpr ⟨as, b, h2, hm⟩
        simp [likeMatches, hrec]

theorem likeMatches_plain (t : List Char) (hw : ∀ ch ∈ t, ch ≠ '%' ∧ ch ≠ '_') :
    ∀ s, (likeMatches t s = true ↔ lowerStr t = lowerStr s) := by
  induction t with
  | nil =>
    intro s
    cases s <;> simp [likeMatches, lowerStr]
  | cons a ps ih =>
    intro s
    have ha := hw a (List.mem_cons_self a ps)
    have ih' := ih (fun ch h => hw ch (List.mem_cons_of_mem _ h))
    cases s with
    | nil =>
      simp [likeMatches, ha.1, lowerStr]
    | cons c cs =>
      have ihs := ih' cs
      simp only [lowerStr, List.map_cons] at ihs ⊢
      simp [likeMatches, ha.1, ha.2, Bool.and_eq_true, decide_eq_true_eq,
        List.cons.injEq, ihs]

theorem likeMatches_plain_pct (t : List Char) (hw : ∀ ch ∈ t, ch ≠ '%' ∧ ch ≠ '_') :
    ∀ s, (likeMatches (t ++ ['%']) s = true ↔
      ∃ a b, s = a ++ b ∧ lowerStr t = lowerStr a) := by
  induction t with
  | nil =>
    intro s
    simp only [List.nil_append]
    constructor
    · intro _
      exact ⟨[], s, rfl, rfl⟩
    · intro _
      exact likeMatches_pct s
  | cons x ps ih =>
    intro s
    have hx := hw x (List.mem_cons_self x ps)
    have ih' := ih (fun ch h => hw ch (List.mem_cons_of_mem _ h))
    cases s with
    | nil =>
      constructor
      · intro h
        rw [List.cons_append] at h
        simp [likeMatches, hx.1] at h
      · rintro ⟨a, b, hab, hla⟩
        rcases List.append_eq_nil.mp hab.symm with ⟨ha, hb⟩
        subst ha
        simp [lowerStr] at hla
    | cons c cs =>
      have ihs := ih' cs
      constructor
      · intro h
        rw [List.cons_append] at h
        simp only [likeMatches, hx.1, hx.2, if_neg, if_false, Bool.and_eq_true,
          decide_eq_true_eq] at h
        rcases h with ⟨heq, hrec⟩
        rcases ihs.mp hrec with ⟨a, b, hab, hla⟩
        refine ⟨c :: a, b, by simp [hab], ?_⟩
        simp only [lowerStr, List.map_cons] at hla ⊢
        rw [heq, hla]
      · rintro ⟨a, b, hab, hla⟩
        cases a with
        | nil => simp [lowerStr] at hla
        | cons a0 as =>
          rw [List.cons_append] at hab
          injection hab with h1 h2
          subst h1
          simp only [lowerStr, List.map_cons, List.cons.injEq] at hla
          rcases hla with ⟨hx0, hps⟩
          rw [List.cons_append]
          simp only [likeMatches, hx.1, hx.2, if_neg, if_false, Bool.and_eq_true,
            decide_eq_true_eq]
          exact ⟨hx0, ihs.mpr ⟨as, b, h2, hps⟩⟩

theorem isPrefixOf_iff_exists (t : List Char) :
    ∀ s, (t.isPrefixOf s = true ↔ ∃ b, s = t ++ b) := by
  induction t with
  | nil => intro s; simp [List.isPrefixOf]
  | cons a as ih =>
    intro s
    cases s with
    | nil => simp [List.isPrefixOf]
    | cons c cs =>
      constructor
      · intro h
        simp only [List.isPrefixOf, Bool.and_eq_true, beq_iff_eq] at h
        rcases h with ⟨h1, h2⟩
        rcases (ih cs).mp h2 with ⟨b, hb⟩
        exact ⟨b, by rw [List.cons_append, h1, hb]⟩
      · rintro ⟨b, hb⟩
        rw [List.cons_append] at hb
        injection hb with h1 h2
        simp only [List.isPrefixOf, Bool.and_eq_true, beq_iff_eq]
        exact ⟨h1.symm, (ih cs).mpr ⟨b, h2⟩⟩

theorem containsSub_iff (t : List Char) :
    ∀ s, (containsSub t s = true ↔ ∃ a b, s = a ++ t ++ b) := by
  intro s
  induction s with
  | nil =>
    constructor
    · intro h
      have ht : t = [] := by
        cases t with
        | nil => rfl
        | cons x xs => simp [containsSub, List.isEmpty] at h
      exact ⟨[], [], by simp [ht]⟩
    · rintro ⟨a, b, hab⟩
      rcases List.append_eq_nil.mp hab.symm with ⟨h1, h2⟩
      rcases List.append_eq_nil.mp h1 with ⟨h3, h4⟩
      simp [containsSub, h4]
  | cons c cs ih =>
    constructor
    · intro h
      rcases (by simpa [containsSub, Bool.or_eq_true] using h :
          t.isPrefixOf (c :: cs) = true ∨ containsSub t cs = true) with h' | h'
      · rcases (isPrefixOf_iff_exists t (c :: cs)).mp h' with ⟨b, hb⟩
        exact ⟨[], b, by simpa using hb⟩
      · rcases ih.mp h' with ⟨a, b, hab⟩
        exact ⟨c :: a, b, by simp [hab]⟩
    · rintro ⟨a, b, hab⟩
      cases a with
      | nil =>
        simp only [List.nil_append] at hab
        have hp : t.isPrefixOf (c :: cs) = true :=
          (isPrefixOf_iff_exists t (c :: cs)).mpr ⟨b, hab⟩
        simp [containsSub, hp]
      | cons a0 as =>
        rw [List.cons_append] at hab
        injection hab with h1 h2
        have hc : containsSub t cs = true := ih.mpr ⟨as, b, h2⟩
        simp [containsSub, hc]

theorem lowerStr_append_split (s : List Char) :
    ∀ x y, lowerStr s = x ++ y →
      ∃ a b, s = a ++ b ∧ lowerStr a = x ∧ lowerStr b = y := by
  induction s with
  | nil =>
    intro x y h
    simp only [lowerStr, List.map_nil] at h
    rcases List.append_eq_nil.mp h.symm with ⟨h1, h2⟩
    exact ⟨[], [], rfl, by simp [lowerStr, h1], by simp [lowerStr, h2]⟩
  | cons c cs ih =>
    intro x y h
    cases x with
    | nil =>
      exact ⟨[], c :: cs, rfl, rfl, by simpa using h⟩
    | cons x0 xs =>
      rw [List.cons_append] at h
      simp only [lowerStr, List.map_cons] at h
      injection h with h1 h2
      rcases ih xs y h2 with ⟨a, b, hab, ha, hb⟩
      refine ⟨c :: a, b, by simp [hab], ?_, hb⟩
      simp only [lowerStr, List.map_cons] at ha ⊢
      rw [h1, ha]

theorem likeMatches_likePat_iff (t : List Char)
    (hw : ∀ ch ∈ t, ch ≠ '%' ∧ ch ≠ '_') (s : List Char) :
    likeMatches (likePat t) s = true ↔
      containsSub (lowerStr t) (lowerStr s) = true := by
  rw [likePat, likeMatches_pct_cons, containsSub_iff]
  constructor
  · rintro ⟨a, b, hab, hm⟩
    rcases (likeMatches_plain_pct t hw b).mp hm with ⟨p, q, hpq, hlp⟩
    refine ⟨lowerStr a, lowerStr q, ?_⟩
    rw [hab, hpq]
    simp only [lowerStr, List.map_append] at hlp ⊢
    rw [← hlp, List.append_assoc]
  · rintro ⟨x, y, hxy⟩
    rw [List.append_assoc] at hxy
    rcases lowerStr_append_split s x (lowerStr t ++ y) hxy with ⟨a, rest, hs, hx, hrest⟩
    rcases lowerStr_append_split rest (lowerStr t) y hrest with ⟨p, q, hr, hp, hq⟩
    refine ⟨a, rest, hs, ?_⟩
    exact (likeMatches_plain_pct t hw rest).mpr ⟨p, q, hr, hp.symm⟩

theorem containsSub_nil_pat (s : List Char) : containsSub [] s = true := by
  cases s <;> simp [containsSub, List.isPrefixOf]

theorem specMatches_empty (c : Contact) : specMatches "" c = true := by
  have h : ("" : String).data = [] := rfl
  simp [specMatches, substrCI, h, lowerStr, containsSub_nil_pat]

theorem contactMatches_eq_specMatches (t : String) (c : Contact)
    (hw : NoWildcards t) : contactMatches t c = specMatches t c := by
  apply bool_eq_of_iff
  simp only [contactMatches, specMatches, substrCI, Bool.or_eq_true]
  rw [likeMatches_likePat_iff t.data hw, likeMatches_likePat_iff t.data hw,
    likeMatches_likePat_iff t.data hw]

theorem likeMatches_pat_pct (s : List Char) :
    likeMatches (likePat ['%']) s = true := by
  have hp : likePat ['%'] = ['%', '%', '%'] := rfl
  rw [hp]
  exact (likeMatches_pct_cons _ _).mpr ⟨[], s, rfl,
    (likeMatches_pct_cons _ _).mpr ⟨[], s, rfl, likeMatches_pct s⟩⟩

theorem likeMatches_pat_underscore (c : Char) (cs : List Char) :
    likeMatches (likePat ['_']) (c :: cs) = true := by
  have hp : likePat ['_'] = ['%', '_', '%'] := rfl
  rw [hp]
  apply (likeMatches_pct_cons _ _).mpr
  refine ⟨[], c :: cs, rfl, ?_⟩
  have h2 : likeMatches ['%'] cs = true := likeMatches_pct cs
  simp [likeMatches, h2]

theorem contactMatches_pct (c : Contact) : contactMatches "%" c = true := by
  have hd : ("%" : String).data = ['%'] := rfl
  simp [contactMatches, hd, likeMatches_pat_pct]

theorem contactMatches_underscore (c : Contact) (h : c.first_name ≠ "") :
    contactMatches "_" c = true := by
  have hd : ("_" : String).data = ['_'] := rfl
  cases hfn : c.first_name.data with
  | nil => exact absurd (String.ext hfn) h
  | cons a as =>
    simp [contactMatches, hd, hfn, likeMatches_pat_underscore]

theorem filter_contactMatches_pct (l : List Contact) :
    l.filter (contactMatches "%") = l :=
  List.filter_eq_self.mpr (fun c _ => contactMatches_pct c)

theorem find?_map_update (cid : Nat) (u : ContactUpdate) :
    ∀ (l : List Contact) (c : Contact),
      l.find? (fun d => d.id == cid) = some c →
      (l.map (fun d => if d.id == cid then applyUpdate d u else d)).find?
          (fun d => d.id == cid) = some (applyUpdate c u) := by
  intro l
  induction l with
  | nil => intro c h; simp [List.find?] at h
  | cons x xs ih =>
    intro c h
    rw [List.map_cons]
    by_cases hx : (x.id == cid) = true
    · rw [List.find?_cons, hx] at h
      injection h with h'
      subst h'
      rw [if_pos hx]
      have hp : ((applyUpdate x u).id == cid) = true := hx
      rw [List.find?_cons, hp]
    · rw [List.find?_cons] at h
      simp only [Bool.not_eq_true] at hx
      rw [hx] at h
      rw [if_neg (by simp [hx])]
      rw [List.find?_cons, hx]
      exact ih c h

theorem find?_eraseP_nodup (cid : Nat) :
    ∀ l : List Contact, (l.map Contact.id).Nodup →
      ∀ c : Contact, l.find? (fun d => d.id == cid) = some c →
      (l.eraseP (fun d => d.id == cid)).find? (fun d => d.id == cid) = none := by
  intro l
  induction l with
  | nil => intro _ c h; simp [List.find?] at h
  | cons x xs ih =>
    intro hnd c h
    rw [List.map_cons, List.nodup_cons] at hnd
    by_cases hx : (x.id == cid) = true
    · rw [List.eraseP_cons, hx]
      simp only [cond_true]
      apply List.find?_eq_none.mpr
      intro a ha hpa
      have ha1 : a.id = cid := by simpa using hpa
      have hx1 : x.id = cid := by simpa using hx
      exact hnd.1 (by rw [hx1, ← ha1]; exact List.mem_map_of_mem Contact.id ha)
    · simp only [Bool.not_eq_true] at hx
      rw [List.eraseP_cons, hx]
      simp only [cond_false]
      rw [List.find?_cons, hx] at h
      rw [List.find?_cons, hx]
      exact ih hnd.2 c h

theorem mem_eraseP_of_id_ne (cid : Nat) :
    ∀ l : List Contact, ∀ c ∈ l, c.id ≠ cid →
      c ∈ l.eraseP (fun d => d.id == cid) := by
  intro l
  induction l with
  | nil => intro c h; simp at h
  | cons x xs ih =>
    intro c hc hne
    by_cases hx : (x.id == cid) = true
    · rw [List.eraseP_cons, hx]
      simp only [cond_true]
      rcases List.mem_cons.mp hc with h | h
      · subst h; exact absurd (by simpa using hx) hne
      · exact h
    · simp only [Bool.not_eq_true] at hx
      rw [List.eraseP_cons, hx]
      simp only [cond_false]
      rcases List.mem_cons.mp hc with h | h
      · subst h; exact List.mem_cons_self _ _
      · exact List.mem_cons_of_mem _ (ih c h hne)

theorem find?_append_new (cid : Nat) (c : Contact) :
    ∀ l : List Contact, (∀ d ∈ l, d.id ≠ cid) → (c.id == cid) = true →
      (l ++ [c]).find? (fun d => d.id == cid) = some c := by
  intro l
  induction l with
  | nil => intro _ hc; simp [List.find?_cons, hc]
  | cons x xs ih =>
    intro hall hc
    have hne : x.id ≠ cid := hall x (List.mem_cons_self x xs)
    have hx : (x.id == cid) = false := by
      rw [beq_eq_false_iff_ne]; exact hne
    rw [List.cons_append, List.find?_cons, hx]
    exact ih (fun d hd => hall d (List.mem_cons_of_mem _ hd)) hc

/-! ### Claim theorems -/

/-- Claim C7: `list` returns contacts in stable insertion order (create appends
at the end), skips the first `skip` matches and returns at most `limit`
contacts; over three contacts created in order A, B, C, `list(skip=1, limit=1)`
with no search returns exactly `[B]`. -/
theorem c7_list_pagination_insertion_order :
    (∀ (st : Store) (skip limit : Nat),
        listContacts st skip limit none = (st.contacts.drop skip).take limit ∧
        (listContacts st skip limit none).length ≤ limit) ∧
    (∀ (st : Store) (inp : ContactCreate),
        (createContact st inp).2.contacts =
          st.contacts ++ [(createContact st inp).1]) ∧
    listContacts stABC 1 1 none = [cB] := by
  refine ⟨fun st skip limit => ⟨rfl, ?_⟩, fun st inp => rfl, rfl⟩
  exact List.length_take_le _ _

/-- Claim C3: `create` returns a Contact whose id is fresh (distinct from every
stored contact's id), whose four text fields equal the supplied values, and
whose address equals the supplied optional address (so null when omitted). -/
theorem c3_create_returns_fresh_contact (st : Store) (inp : ContactCreate)
    (h : WF st) :
    (∀ c' ∈ st.contacts, c'.id ≠ (createContact st inp).1.id) ∧
    (createContact st inp).1.first_name = inp.first_name ∧
    (createContact st inp).1.last_name = inp.last_name ∧
    (createContact st inp).1.email = inp.email ∧
    (createContact st inp).1.phone_number = inp.phone_number ∧
    (createContact st inp).1.address = inp.address := by
  refine ⟨?_, rfl, rfl, rfl, rfl, rfl⟩
  intro c' hc'
  have hlt := h.2 c' hc'
  simp only [createContact]
  omega

/-- Witness for C3 at a concrete well-formed store. -/
theorem c3_create_returns_fresh_contact_witness :
    WF stA ∧
    ((∀ c' ∈ stA.contacts, c'.id ≠ (createContact stA inpB).1.id) ∧
      (createContact stA inpB).1.first_name = inpB.first_name ∧
      (createContact stA inpB).1.last_name = inpB.last_name ∧
      (createContact stA inpB).1.email = inpB.email ∧
      (createContact stA inpB).1.phone_number = inpB.phone_number ∧
      (createContact stA inpB).1.address = inpB.address) :=
  ⟨by decide, c3_create_returns_fresh_contact stA inpB (by decide)⟩

/-- Claim C8: immediately after `create`, `get` at the returned id yields the
very contact `create` returned. -/
theorem c8_create_then_get (st : Store) (inp : ContactCreate) (h : WF st) :
    getContact (createContact st inp).2 (createContact st inp).1.id =
      some (createContact st inp).1 := by
  have hfresh : ∀ d ∈ st.contacts, d.id ≠ st.nextId :=
    fun d hd => Nat.ne_of_lt (h.2 d hd)
  show findContact _ _ = _
  simp only [findContact, createContact]
  exact find?_append_new st.nextId _ st.contacts hfresh (by simp)

/-- Witness for C8 at a concrete well-formed store. -/
theorem c8_create_then_get_witness :
    WF stA ∧
    getContact (createContact stA inpB).2 (createContact stA inpB).1.id =
      some (createContact stA inpB).1 :=
  ⟨by decide, c8_create_then_get stA inpB (by decide)⟩

/-- Claim C2: `update` overwrites on the stored contact exactly the fields
present in the change-set; omitted fields keep their stored values, and the id
is never changed. -/
theorem c2_update_patch_merge (st : Store) (cid : Nat) (u : ContactUpdate)
    (c : Contact) (h : findContact st cid = some c) :
    ∃ c' st', updateContact st cid u = some (c', st') ∧
      findContact st' cid = some c' ∧
      c'.id = c.id ∧
      (∀ v, u.first_name = some v → c'.first_name = v) ∧
      (u.first_name = none → c'.first_name = c.first_name) ∧
      (∀ v, u.last_name = some v → c'.last_name = v) ∧
      (u.last_name = none → c'.last_name = c.last_name) ∧
      (∀ v, u.email = some v → c'.email = v) ∧
      (u.email = none → c'.email = c.email) ∧
      (∀ v, u.phone_number = some v → c'.phone_number = v) ∧
      (u.phone_number = none → c'.phone_number = c.phone_number) ∧
      (∀ v, u.address = some v → c'.address = v) ∧
      (u.address = none → c'.address = c.address) := by
  refine ⟨applyUpdate c u,
    ⟨st.contacts.map (fun d => if d.id == cid then applyUpdate d u else d),
      st.nextId⟩, ?_, ?_, rfl, ?_, ?_, ?_, ?_, ?_, ?_, ?_, ?_, ?_, ?_⟩
  · simp [updateContact, h]
  · exact find?_map_update cid u st.contacts c h
  all_goals
    first
    | (intro v hv; simp [applyUpdate, hv])
    | (intro hv; simp [applyUpdate, hv])

/-- Witness for C2 at a concrete store and change-set touching only
`first_name`. -/
theorem c2_update_patch_merge_witness :
    findContact stA 1 = some cA ∧
    (∃ c' st', updateContact stA 1 u0 = some (c', st') ∧
      findContact st' 1 = some c' ∧
      c'.id = cA.id ∧
      (∀ v, u0.first_name = some v → c'.first_name = v) ∧
      (u0.first_name = none → c'.first_name = cA.first_name) ∧
      (∀ v, u0.last_name = some v → c'.last_name = v) ∧
      (u0.last_name = none → c'.last_name = cA.last_name) ∧
      (∀ v, u0.email = some v → c'.email = v) ∧
      (u0.email = none → c'.email = cA.email) ∧
      (∀ v, u0.phone_number = some v → c'.phone_number = v) ∧
      (u0.phone_number = none → c'.phone_number = cA.phone_number) ∧
      (∀ v, u0.address = some v → c'.address = v) ∧
      (u0.address = none → c'.address = cA.address)) :=
  ⟨by decide, c2_update_patch_merge stA 1 u0 cA (by decide)⟩

/-- Claim C5: `get`, `update` and `delete` signal NotFound exactly when no
stored contact has the requested id; when one exists, `get` returns it (a
stored contact with that id) and `update`/`delete` succeed. -/
theorem c5_notfound_iff_absent (st : Store) (cid : Nat) (u : ContactUpdate) :
    ((getContact st cid = none) ↔ ∀ c ∈ st.contacts, c.id ≠ cid) ∧
    ((updateContact st cid u = none) ↔ getContact st cid = none) ∧
    ((deleteContact st cid = none) ↔ getContact st cid = none) ∧
    (∀ c, getContact st cid = some c → c ∈ st.contacts ∧ c.id = cid) := by
  refine ⟨?_, ?_, ?_, ?_⟩
  · simp only [getContact, findContact, List.find?_eq_none]
    constructor
    · intro h c hc
      simpa using h c hc
    · intro h c hc
      simpa using h c hc
  · constructor
    · intro h
      cases hf : findContact st cid with
      | none => exact hf
      | some c => simp [updateContact, hf] at h
    · intro h
      simp [updateContact, show findContact st cid = none from h]
  · constructor
    · intro h
      cases hf : findContact st cid with
      | none => exact hf
      | some c => simp [deleteContact, hf] at h
    · intro h
      simp [deleteContact, show findContact st cid = none from h]
  · intro c h
    have h' : st.contacts.find? (fun d => d.id == cid) = some c := h
    exact ⟨List.mem_of_find?_eq_some h', by simpa using List.find?_some h'⟩

/-- Witness for C5: on a concrete store, id 2 is absent (NotFound) and id 1 is
present and returned by `get`. -/
theorem c5_notfound_iff_absent_witness :
    getContact stA 2 = none ∧ (cA ∈ stA.contacts ∧ cA.id = 1) :=
  ⟨(c5_notfound_iff_absent stA 2 u0).1.mpr (by decide),
   (c5_notfound_iff_absent stA 1 u0).2.2.2 cA (by decide)⟩

/-- Claim C6: deleting an existing id removes the contact — the returned value
is the contact's state immediately before deletion (what `get` returned), and
a subsequent `get` of that id signals NotFound. -/
theorem c6_delete_removes (st : Store) (cid : Nat) (c : Contact) (st' : Store)
    (hwf : WF st) (h : deleteContact st cid = some (c, st')) :
    getContact st cid = some c ∧ getContact st' cid = none := by
  cases hf : findContact st cid with
  | none => simp [deleteContact, hf] at h
  | some d =>
    simp only [deleteContact, hf, Option.some.injEq, Prod.mk.injEq] at h
    rcases h with ⟨h1, h2⟩
    subst h1
    refine ⟨hf, ?_⟩
    rw [← h2]
    show List.find? _ _ = none
    exact find?_eraseP_nodup cid st.contacts hwf.1 d hf

/-- Witness for C6: deleting id 1 from a concrete one-contact store. -/
theorem c6_delete_removes_witness :
    WF stA ∧ deleteContact stA 1 = some (cA, ⟨[], 2⟩) ∧
    (getContact stA 1 = some cA ∧ getContact ⟨[], 2⟩ 1 = none) :=
  ⟨by decide, by decide, c6_delete_removes stA 1 cA ⟨[], 2⟩ (by decide) (by decide)⟩

/-- Claim C10: every operation leaves the contacts it does not target
unchanged: `create` appends one contact and leaves the rest of the table
intact, and `update`/`delete` keep every contact whose id differs from the
targeted id in the table. -/
theorem c10_frame_nontargets_unchanged (st : Store) (cid : Nat)
    (u : ContactUpdate) (inp : ContactCreate) :
    ((createContact st inp).2.contacts =
        st.contacts ++ [(createContact st inp).1]) ∧
    (∀ c' st', updateContact st cid u = some (c', st') →
        ∀ c ∈ st.contacts, c.id ≠ cid → c ∈ st'.contacts) ∧
    (∀ c' st', deleteContact st cid = some (c', st') →
        ∀ c ∈ st.contacts, c.id ≠ cid → c ∈ st'.contacts) := by
  refine ⟨rfl, ?_, ?_⟩
  · intro c' st' h c hc hne
    cases hf : findContact st cid with
    | none => simp [updateContact, hf] at h
    | some d =>
      simp only [updateContact, hf, Option.some.injEq, Prod.mk.injEq] at h
      rcases h with ⟨h1, h2⟩
      rw [← h2]
      apply List.mem_map.mpr
      refine ⟨c, hc, ?_⟩
      rw [if_neg (by simpa using hne)]
  · intro c' st' h c hc hne
    cases hf : findContact st cid with
    | none => simp [deleteContact, hf] at h
    | some d =>
      simp only [deleteContact, hf, Option.some.injEq, Prod.mk.injEq] at h
      rcases h with ⟨h1, h2⟩
      rw [← h2]
      exact mem_eraseP_of_id_ne cid st.contacts c hc hne

/-- Witness for C10: on a concrete two-contact store, updating or deleting
id 1 leaves the contact with id 2 in the table. -/
theorem c10_frame_nontargets_unchanged_witness :
    cB ∈ (⟨[applyUpdate cA u0, cB], 3⟩ : Store).contacts ∧
    cB ∈ (⟨[cB], 3⟩ : Store).contacts :=
  ⟨(c10_frame_nontargets_unchanged stAB 1 u0 inpB).2.1
      (applyUpdate cA u0) ⟨[applyUpdate cA u0, cB], 3⟩ (by decide) cB
      (by decide) (by decide),
   (c10_frame_nontargets_unchanged stAB 1 u0 inpB).2.2
      cA ⟨[cB], 3⟩ (by decide) cB (by decide) (by decide)⟩

theorem validateCreate_ok (r : RawContactInput) (inp : ContactCreate)
    (h : validateCreate r = .ok inp) :
    (∃ fn, r.first_name = some fn) ∧ (∃ ln, r.last_name = some ln) ∧
    (∃ em, r.email = some em ∧ isValidEmail em = true) ∧
    (∃ pn, r.phone_number = some pn) := by
  rcases r with ⟨f1, f2, f3, f4, f5⟩
  cases f1 <;> cases f2 <;> cases f3 <;> cases f4 <;>
    simp [validateCreate] at h ⊢
  split at h
  · assumption
  · cases h

/-- Counterexample to claim C4 as stated: a creation input whose required
`first_name` is explicitly the empty string raises no validation error — the
contact is accepted and persisted with `first_name = ""`. -/
theorem c4_counterexample_empty_field_accepted :
    rawEmptyFirst.first_name = some "" ∧
    (createEndpoint emptyStore rawEmptyFirst).1 =
      Except.ok ⟨1, "", "Beta", "b@example.com", "222", none⟩ ∧
    (createEndpoint emptyStore rawEmptyFirst).2.contacts =
      [⟨1, "", "Beta", "b@example.com", "222", none⟩] :=
  ⟨rfl, rfl, rfl⟩

/-- Claim C4 (amended): create signals a ValidationError when a required field
is missing from the input or when the supplied email fails the email-format
check (empty strings in the plain text fields are accepted), and on a
validation error nothing is persisted. -/
theorem c4_validation_missing_or_bad_email (st : Store) (r : RawContactInput)
    (h : r.first_name = none ∨ r.last_name = none ∨ r.email = none ∨
      r.phone_number = none ∨
      (∃ em, r.email = some em ∧ isValidEmail em = false)) :
    (∃ e, (createEndpoint st r).1 = Except.error e) ∧
    (createEndpoint st r).2 = st := by
  cases hv : validateCreate r with
  | error e =>
    refine ⟨⟨e, ?_⟩, ?_⟩ <;> simp [createEndpoint, hv]
  | ok inp =>
    exfalso
    rcases validateCreate_ok r inp hv with
      ⟨⟨fn, h1⟩, ⟨ln, h2⟩, ⟨em, h3, hval⟩, ⟨pn, h4⟩⟩
    rcases h with h | h | h | h | ⟨em2, hem2, hbad⟩
    · rw [h1] at h; exact Option.noConfusion h
    · rw [h2] at h; exact Option.noConfusion h
    · rw [h3] at h; exact Option.noConfusion h
    · rw [h4] at h; exact Option.noConfusion h
    · rw [h3] at hem2
      injection hem2 with he
      subst he
      rw [hval] at hbad
      exact Bool.noConfusion hbad

/-- Witness for C4 (amended): an input missing its email is rejected and
nothing is stored. -/
theorem c4_validation_missing_or_bad_email_witness :
    rawMissingEmail.email = none ∧
    ((∃ e, (createEndpoint emptyStore rawMissingEmail).1 = Except.error e) ∧
      (createEndpoint emptyStore rawMissingEmail).2 = emptyStore) :=
  ⟨rfl, c4_validation_missing_or_bad_email emptyStore rawMissingEmail
    (Or.inr (Or.inr (Or.inl rfl)))⟩

/-- Claim C9: the search text is interpolated unescaped into the LIKE pattern,
so `%` and `_` act as wildcards rather than literal characters: search "%"
matches every contact (and listing with search "%" returns the whole table),
and search "_" matches any contact whose `first_name` has at least one
character. -/
theorem c9_like_wildcards_unescaped (st : Store) (c : Contact) :
    contactMatches "%" c = true ∧
    (c.first_name ≠ "" → contactMatches "_" c = true) ∧
    listContacts st 0 st.contacts.length (some "%") = st.contacts := by
  refine ⟨contactMatches_pct c, contactMatches_underscore c, ?_⟩
  simp only [listContacts]
  rw [if_neg (by decide : ¬("%" : String) = "")]
  rw [filter_contactMatches_pct]
  simp

/-- Witness for C9 at a concrete store and contact with non-empty
`first_name`. -/
theorem c9_like_wildcards_unescaped_witness :
    cA.first_name ≠ "" ∧
    (contactMatches "%" cA = true ∧
      (cA.first_name ≠ "" → contactMatches "_" cA = true) ∧
      listContacts stA 0 stA.contacts.length (some "%") = stA.contacts) :=
  ⟨by decide, c9_like_wildcards_unescaped stA cA⟩

/-- Counterexample to claim C1 as stated: with search "%" the code returns a
contact although "%" occurs as a substring of none of its three searched
fields, so list/search is not case-insensitive substring matching for every
non-empty search text. -/
theorem c1_counterexample_pct_search :
    listContacts stA 0 100 (some "%") = [cA] ∧
    specMatches "%" cA = false := by
  constructor
  · simp only [listContacts]
    rw [if_neg (by decide : ¬("%" : String) = "")]
    rw [show stA.contacts = [cA] from rfl, filter_contactMatches_pct]
    rfl
  · decide

/-- Claim C1 (amended): for a search text containing neither `%` nor `_`, list
returns exactly the contacts for which the search text is a case-insensitive
substring of `first_name` OR `last_name` OR `email`, in stored order subject
to skip/limit; with search absent or empty, all contacts are returned subject
to skip/limit. -/
theorem c1_search_substring_wildcard_free (st : Store) (skip limit : Nat)
    (t : String) (hw : NoWildcards t) :
    listContacts st skip limit (some t) =
      ((st.contacts.filter (specMatches t)).drop skip).take limit ∧
    listContacts st skip limit none = (st.contacts.drop skip).take limit ∧
    listContacts st skip limit (some "") = (st.contacts.drop skip).take limit := by
  refine ⟨?_, rfl, ?_⟩
  · by_cases ht : t = ""
    · subst ht
      have hfe : st.contacts.filter (specMatches "") = st.contacts :=
        List.filter_eq_self.mpr (fun c _ => specMatches_empty c)
      simp [listContacts, hfe]
    · have hfc : st.contacts.filter (contactMatches t) =
          st.contacts.filter (specMatches t) :=
        List.filter_congr (fun c _ => contactMatches_eq_specMatches t c hw)
      simp only [listContacts, if_neg ht, hfc]
  · simp [listContacts]

/-- Witness for C1 (amended) at the spec's search example "oo" over a concrete
three-contact store. -/
theorem c1_search_substring_wildcard_free_witness :
    NoWildcards "oo" ∧
    (listContacts stSearch 0 100 (some "oo") =
        ((stSearch.contacts.filter (specMatches "oo")).drop 0).take 100 ∧
      listContacts stSearch 0 100 none = (stSearch.contacts.drop 0).take 100 ∧
      listContacts stSearch 0 100 (some "") =
        (stSearch.contacts.drop 0).take 100) :=
  ⟨by decide, c1_search_substring_wildcard_free stSearch 0 100 "oo" (by decide)⟩
